import Mathlib

/-!
Verification of the tide-clock engine (`watch_faces/tide_clock.py`): harmonic
high/low tide prediction, tidal event search, daylight-saving conversion and
site-configuration loading.

Timestamps are integer seconds.  Python `%` on integers with a positive
modulus agrees with `Int.emod`, and Python `int(...)` on a float truncates
toward zero; the float harmonic sum of `Tide.high` is abstracted as an
integer-valued function `corr` of the integer `base` (for a site whose seven
amplitude pairs are all zero the float sum is exactly `0.0`, so `corr` is the
zero function), and the float `lowf` is modelled as a rational.
-/

/-- `self.basePeriod100 = 4471416`: 100 times the M2 period in seconds. -/
def basePeriod100 : Int := 4471416

/-- `self.basePeriod = int(round(self.basePeriod100 / 100))` = 44714. -/
def basePeriod : Int := 44714

/-- `self.halfPeriod = int(round(self.basePeriod100 / 200))` = 22357. -/
def halfPeriod : Int := 22357

/-- Truncation toward zero of a rational: the semantics of Python `int(x)`
for a float `x`. -/
def truncQ (q : ℚ) : Int := if 0 ≤ q then ⌊q⌋ else -⌊-q⌋

/-- State of one loaded `Tide` site: the epoch `t0`, the per-site phase
`offset` (seconds), the low-tide fraction `lowf = float(word[2]) / 100`, and
`corr`, the truncated harmonic correction
`int(sum s[i]*sin(omega_i) + c[i]*cos(omega_i))` as a function of `base`.
For an all-zero amplitude site `corr` is the zero function. -/
structure Tide where
  t0 : Int
  offset : Int
  lowf : ℚ
  corr : Int → Int

/-- `Tide.high`: nearest modeled high tide.  Mirrors
`time0 = t - self.t0 - self.offset + self.halfPeriod`;
`base = time0 - (time0 % self.basePeriod100) % self.basePeriod + self.offset`;
`return self.t0 + base + int(offset)` with the float sum abstracted by `corr`. -/
def Tide.high (m : Tide) (t : Int) : Int :=
  let time0 := t - m.t0 - m.offset + halfPeriod
  let base := time0 - time0 % basePeriod100 % basePeriod + m.offset
  m.t0 + base + m.corr base

/-- The core of `Tide.low` once both bounds are known:
`lastHigh + int(self.lowf * (nextHigh - lastHigh))`. -/
def Tide.lowBounds (m : Tide) (lastHigh nextHigh : Int) : Int :=
  lastHigh + truncQ (m.lowf * ((nextHigh - lastHigh : Int) : ℚ))

/-- `Tide.low(t, lastHigh=None, nextHigh=None)`.  A missing bound is derived
from `t` via `self.high(t - self.halfPeriod)` resp.
`self.high(t + self.halfPeriod)`; if `t` is itself `None` in
that case the Python call fails, modelled by `none`. -/
def Tide.low (m : Tide) (t lastHigh nextHigh : Option Int) : Option Int :=
  let lh := match lastHigh with
    | some x => some x
    | none => t.map fun u => m.high (u - halfPeriod)
  let nh := match nextHigh with
    | some x => some x
    | none => t.map fun u => m.high (u + halfPeriod)
  match lh, nh with
  | some a, some b => some (m.lowBounds a b)
  | _, _ => none

/-- Python `min(list, key=lambda x: abs(x[0] - t))` folded over two elements:
keeps the first element on ties, as Python `min` does. -/
def minByAbs (t : Int) (a b : Int × Bool) : Int × Bool :=
  if (b.1 - t).natAbs < (a.1 - t).natAbs then b else a

/-- `Tide.event(t, next=False)`: the nearest tidal extremum to `t`
(`True` = high).  Mirrors the source: advance by `halfPeriod` when `next`,
compute `lastHigh`, reinterpret it as `nextHigh` when it is in the future,
and return the candidate of `[(lastHigh, True), (low, False), (nextHigh, True)]`
minimising `abs(x[0] - t)`. -/
def Tide.event (m : Tide) (t : Int) (next : Bool := false) : Int × Bool :=
  let t := if next then t + halfPeriod else t
  let lastHigh := m.high t
  let pr := if t < lastHigh then (m.high (lastHigh - basePeriod), lastHigh)
            else (lastHigh, m.high (lastHigh + basePeriod))
  let low := m.lowBounds pr.1 pr.2
  minByAbs t (minByAbs t (pr.1, true) (low, false)) (pr.2, true)

/-- First element of the event cache built in `TideClockApp._draw`:
`base, high = event(utcTime)`; if `base < utcTime` it is discarded and
recomputed as `event(base, next=True)`. -/
def Tide.chainFirst (m : Tide) (t : Int) : Int × Bool :=
  let e := m.event t
  if e.1 < t then m.event e.1 true else e

/-- The remaining elements of the cache: repeatedly
`base, high = event(base, next=True)`. -/
def Tide.chainFrom (m : Tide) (e : Int × Bool) : Nat → List (Int × Bool)
  | 0 => []
  | Nat.succ n =>
    let e2 := m.event e.1 true
    e2 :: m.chainFrom e2 n

/-- The event cache of `TideClockApp._draw` with `count` entries. -/
def Tide.chain (m : Tide) (t : Int) : Nat → List (Int × Bool)
  | 0 => []
  | Nat.succ n => m.chainFirst t :: m.chainFrom (m.chainFirst t) n

/-! ### Calendar model for the daylight-saving adjuster

The host interfaces `time.mktime` / `time.localtime` are external
collaborators of the repository (the spec lists them as consumed host
interfaces).  They are modelled here as proleptic Gregorian calendar
arithmetic with epoch 2000-01-01 00:00 = second 0 (the MicroPython epoch
used on the watch), valid for the years 2000 through 2099, during which a
year is a leap year exactly when it is divisible by 4. -/

/-- Cumulative days before month `m` (1-based) in a non-leap year. -/
def cumDays (m : Nat) : Nat :=
  [0, 31, 59, 90, 120, 151, 181, 212, 243, 273, 304, 334].getD (m - 1) 0

/-- Days from 2000-01-01 to year `y`, month `m`, day `d` (valid 2000-2099). -/
def daysFromEpoch (y m d : Nat) : Nat :=
  365 * (y - 2000) + (y - 1997) / 4 + cumDays m +
    (if 2 < m ∧ y % 4 = 0 then 1 else 0) + (d - 1)

/-- `_mktime((y, m, d, hh))`: seconds since the epoch. -/
def _mktime (y m d hh : Nat) : Nat :=
  86400 * daysFromEpoch y m d + 3600 * hh

/-- First second of year `y`. -/
def yearStartSec (y : Nat) : Nat := 86400 * daysFromEpoch y 1 1

/-- `time.localtime(t)[0]`: the calendar year containing second `u`
(valid through 2099; each 4-year block starting 2000, 2004, ... begins with
a leap year). -/
def yearOf (u : Nat) : Nat :=
  let d := u / 86400
  let q := d / 1461
  let r := d % 1461
  2000 + 4 * q + (if r < 366 then 0 else if r < 731 then 1 else if r < 1096 then 2 else 3)

/-- Day of week of day number `days` (0 = Sunday; 2000-01-01 was a Saturday). -/
def dow (days : Nat) : Nat := (days + 6) % 7

/-- `yoff = (5 * year) // 4`. -/
def yoff (year : Nat) : Nat := (5 * year) / 4

/-- Europe spring-forward boundary: `_mktime((year, 3, 31-(yoff+4)%7, 1))`. -/
def springFwdE (year : Nat) : Nat := _mktime year 3 (31 - (yoff year + 4) % 7) 1

/-- Europe fall-back boundary: `_mktime((year, 10, 31-(yoff+1)%7, 1))`. -/
def fallBackE (year : Nat) : Nat := _mktime year 10 (31 - (yoff year + 1) % 7) 1

/-- US-Canada spring-forward boundary: `_mktime((year, 3, 7-(yoff+1)%7, 2))`. -/
def springFwdU (year : Nat) : Nat := _mktime year 3 (7 - (yoff year + 1) % 7) 2

/-- US-Canada fall-back boundary: `_mktime((year, 11, 7-(yoff+1)%7, 2))`. -/
def fallBackU (year : Nat) : Nat := _mktime year 11 (7 - (yoff year + 1) % 7) 2

/-- `_displayTime(t, region, offset)`.  The region is `none` for Python
`None` and `some s` for a region string; the result is `none` exactly when
the source raises `ValueError`. -/
def _displayTime (t : Int) (region : Option String := some "Europe")
    (offset : Int := 3600) : Option Int :=
  let year := yearOf t.toNat
  match region with
  | none => some t
  | some r =>
    if r = "Europe" then
      let springFwd : Int := springFwdE year
      let fallBack : Int := fallBackE year
      some (if t < springFwd ∨ t > fallBack then t else t + offset)
    else if r = "US-Canada" then
      let springFwd : Int := springFwdU year
      let fallBack : Int := fallBackU year
      some (if t < springFwd ∨ t > fallBack then t else t + offset)
    else none

/-- `_standardTime(t, region)`: `_displayTime(t, region=region, offset=-3600)`. -/
def _standardTime (t : Int) (region : Option String := some "Europe") : Option Int :=
  _displayTime t region (-3600)

/-! ### Site selection (`TideClockApp._load_nsite`) -/

/-- The `for n, line in enumerate(f): if n == self._nsite: break` loop:
`some line` when the break is reached, `none` when the loop falls through. -/
def findLine : List String → Nat → Option String
  | [], _ => none
  | l :: _, 0 => some l
  | _ :: ls, n + 1 => findLine ls n

/-- `_load_nsite` line selection: on fall-through the index is reset to 0 and
the first line is re-read (empty string for an empty file). -/
def loadLine (lines : List String) (nsite : Nat) : String × Nat :=
  match findLine lines nsite with
  | some l => (l, nsite)
  | none => (lines.headD "", 0)

/-- `line.split(',', 1)[0]`: the text before the first comma. -/
def firstField (l : String) : String := String.mk (l.data.takeWhile (· ≠ ','))

/-- A config line whose first field starts with a comment marker. -/
def isComment (l : String) : Bool := (firstField l).data.head? = some '#'

/-- Modelled from the spec: the site-selection rule the spec describes for
the config store, namely that comment lines are skipped and the index wraps
cyclically over the non-comment lines.  Stated here only for comparison with
the code (`loadLine`). -/
def loadSpec (lines : List String) (idx : Nat) : Option String :=
  let nc := lines.filter (fun l => !(isComment l))
  if idx < nc.length then nc[idx]? else nc.head?

/-! ### Grid structure of `Tide.high` for a site with zero correction -/

/-- `gridSnap v = v - (v % basePeriod100) % basePeriod`: the integer grid the
zero-correction `Tide.high` snaps to. -/
def gridSnap (v : Int) : Int := v - v % basePeriod100 % basePeriod

/-- A high-tide timestamp of a zero-correction site: a point of the two-stage
grid, shifted by `t0 + offset`.  The grid point in block `q` at cell `j`
(`0 ≤ j ≤ 100`) is `4471416 q + 44714 j`. -/
def validHigh (m : Tide) (x : Int) : Prop :=
  ∃ q j : Int, 0 ≤ j ∧ j ≤ 100 ∧
    x = m.t0 + m.offset + 4471416 * q + 44714 * j

/-- A low-tide timestamp of a zero-correction site: the truncated `lowf`
interpolation of one of the consecutive high pairs the event search can
produce (gap `basePeriod = 44714`, or `44714 + 16` across a `basePeriod100`
block boundary, which can only start at cells 99 and 100). -/
def validLow (m : Tide) (x : Int) : Prop :=
  ∃ q j : Int, 0 ≤ j ∧
    ((j ≤ 99 ∧
        x = m.t0 + m.offset + 4471416 * q + 44714 * j + truncQ (m.lowf * 44714)) ∨
     ((j = 99 ∨ j = 100) ∧
        x = m.t0 + m.offset + 4471416 * q + 44714 * j + truncQ (m.lowf * 44730)))

/-- Invariant of the event chain for a zero-correction site. -/
def validEvent (m : Tide) : Int × Bool → Prop
  | (x, true) => validHigh m x
  | (x, false) => validLow m x

/-- The spring-forward boundary of a recognized region for a year. -/
def springFwdOf (r : String) (y : Nat) : Nat :=
  if r = "Europe" then springFwdE y else springFwdU y

/-- The fall-back boundary of a recognized region for a year. -/
def fallBackOf (r : String) (y : Nat) : Nat :=
  if r = "Europe" then fallBackE y else fallBackU y

/-- `t` avoids the two clock-change hours of its year: the skipped hour
starting at the spring-forward boundary, and the repeated hour whose
standard-time labels are the hour up to and including the fall-back
boundary. -/
def outsideChangeHours (spring fall t : Int) : Prop :=
  ¬(spring ≤ t ∧ t < spring + 3600) ∧ ¬(fall - 3600 < t ∧ t ≤ fall)

/-! ### Basic lemmas -/

theorem truncQ_of_nonneg (q : ℚ) (h : 0 ≤ q) : truncQ q = ⌊q⌋ := by
  simp [truncQ, h]

theorem minByAbs_choice (t : Int) (a b : Int × Bool) :
    minByAbs t a b = a ∨ minByAbs t a b = b := by
  unfold minByAbs; split
  · exact Or.inr rfl
  · exact Or.inl rfl

theorem minByAbs_key_le (t : Int) (a b : Int × Bool) :
    ((minByAbs t a b).1 - t).natAbs ≤ ((a.1 - t).natAbs) ∧
    ((minByAbs t a b).1 - t).natAbs ≤ ((b.1 - t).natAbs) := by
  unfold minByAbs; split <;> constructor <;> omega

/-- With zero correction, `Tide.high` is the grid snap shifted by
`t0 + offset`. -/
theorem high_of_zero_corr (m : Tide) (hcorr : ∀ b, m.corr b = 0) (u : Int) :
    m.high u = m.t0 + m.offset + gridSnap (u - (m.t0 + m.offset) + halfPeriod) := by
  simp only [Tide.high, gridSnap, hcorr]
  have h : u - m.t0 - m.offset + halfPeriod = u - (m.t0 + m.offset) + halfPeriod := by ring
  rw [h]
  ring

/-- Decomposition evaluation of `gridSnap`. -/
theorem gridSnap_eval (q j a v : Int) (hv : v = 4471416 * q + 44714 * j + a)
    (h0 : 0 ≤ a) (ha : a < 44714) (hj : 0 ≤ j) (hja : 44714 * j + a < 4471416) :
    gridSnap v = 4471416 * q + 44714 * j := by
  have hw : v % 4471416 = 44714 * j + a := by
    subst hv
    have h1 : 4471416 * q + 44714 * j + a = (44714 * j + a) + 4471416 * q := by ring
    rw [h1, Int.add_mul_emod_self_left, Int.emod_eq_of_lt (by omega) (by omega)]
  have ha2 : (44714 * j + a) % 44714 = a := by
    have h2 : 44714 * j + a = a + 44714 * j := by ring
    rw [h2, Int.add_mul_emod_self_left, Int.emod_eq_of_lt (by omega) (by omega)]
  unfold gridSnap basePeriod100 basePeriod
  rw [hw, ha2]
  omega

/-- The two low interpolation offsets are ordered and at most 16 apart. -/
theorem lowf_trunc_facts (lf : ℚ) (h1 : 32 < truncQ (lf * 44714))
    (h2 : truncQ (lf * 44714) < 44682) :
    truncQ (lf * 44714) ≤ truncQ (lf * 44730) ∧
    truncQ (lf * 44730) ≤ truncQ (lf * 44714) + 16 := by
  have hlf : 0 < lf := by
    by_contra h
    push_neg at h
    have hq : lf * 44714 ≤ 0 := mul_nonpos_of_nonpos_of_nonneg h (by norm_num)
    have ht : truncQ (lf * 44714) ≤ 0 := by
      unfold truncQ
      split
      · exact Int.floor_nonpos hq
      · have h4 : (0:ℤ) ≤ ⌊-(lf * 44714)⌋ := Int.floor_nonneg.mpr (by linarith)
        omega
    omega
  have hnn1 : (0:ℚ) ≤ lf * 44714 := le_of_lt (mul_pos hlf (by norm_num))
  have hnn2 : (0:ℚ) ≤ lf * 44730 := le_of_lt (mul_pos hlf (by norm_num))
  rw [truncQ_of_nonneg _ hnn1] at h1 h2 ⊢
  rw [truncQ_of_nonneg _ hnn2]
  have hlt : lf * 44714 < 44682 := by
    have := Int.floor_lt.mp h2
    exact_mod_cast this
  have hlf1 : lf < 1 := by nlinarith
  constructor
  · exact Int.floor_le_floor (by nlinarith)
  · calc ⌊lf * 44730⌋ ≤ ⌊lf * 44714 + (16 : ℤ)⌋ := by
          apply Int.floor_le_floor
          push_cast
          nlinarith
      _ = ⌊lf * 44714⌋ + 16 := Int.floor_add_int _ _

/-- Step from a High at grid cell `(q, j)`, `j ≤ 99`: the next event is the
following Low inside the `basePeriod` gap. -/
theorem event_step_high_main (m : Tide) (hcorr : ∀ b, m.corr b = 0)
    (A : Int) (hA : truncQ (m.lowf * 44714) = A) (hA1 : 0 < A) (hA2 : A < 44714)
    (q j x : Int) (hj0 : 0 ≤ j) (hj1 : j ≤ 99)
    (hx : x = m.t0 + m.offset + 4471416 * q + 44714 * j) :
    m.event x true = (x + A, false) := by
  have hh := high_of_zero_corr m hcorr
  have e1 : m.high (x + 22357) = x + 44714 := by
    rw [hh]
    have harg : x + 22357 - (m.t0 + m.offset) + halfPeriod
        = 4471416 * q + 44714 * (j + 1) + 0 := by
      simp only [halfPeriod]; omega
    rw [harg, gridSnap_eval q (j+1) 0 _ rfl (by omega) (by omega) (by omega) (by omega)]
    omega
  have e2 : m.high (x + 44714 - 44714) = x := by
    rw [hh]
    have harg : x + 44714 - 44714 - (m.t0 + m.offset) + halfPeriod
        = 4471416 * q + 44714 * j + 22357 := by
      simp only [halfPeriod]; omega
    rw [harg, gridSnap_eval q j 22357 _ rfl (by omega) (by omega) (by omega) (by omega)]
    omega
  have m1 : minByAbs (x + 22357) (x, true) (x + A, false) = (x + A, false) := by
    unfold minByAbs
    rw [if_pos (by omega)]
  have m2 : minByAbs (x + 22357) (x + A, false) (x + 44714, true) = (x + A, false) := by
    unfold minByAbs
    rw [if_neg (by omega)]
  simp only [Tide.event, halfPeriod, basePeriod, if_true, e1]
  rw [if_pos (by omega)]
  simp only [e2, Tide.lowBounds]
  have hd : ((x + 44714 - x : Int) : ℚ) = (44714 : ℚ) := by push_cast; ring
  rw [hd, hA, m1, m2]

/-- Step from a High at the rare cell `(q, 100)` (16 seconds before a
`basePeriod100` block boundary): the next event is the Low following the
block-boundary High. -/
theorem event_step_high_rare (m : Tide) (hcorr : ∀ b, m.corr b = 0)
    (A : Int) (hA : truncQ (m.lowf * 44714) = A) (hA1 : 0 < A) (hA2 : A < 44682)
    (q x : Int)
    (hx : x = m.t0 + m.offset + 4471416 * q + 44714 * 100) :
    m.event x true = (x + 16 + A, false) := by
  have hh := high_of_zero_corr m hcorr
  have e1 : m.high (x + 22357) = x + 16 := by
    rw [hh]
    have harg : x + 22357 - (m.t0 + m.offset) + halfPeriod
        = 4471416 * (q + 1) + 44714 * 0 + 44698 := by
      simp only [halfPeriod]; omega
    rw [harg, gridSnap_eval (q+1) 0 44698 _ rfl (by omega) (by omega) (by omega) (by omega)]
    omega
  have e3 : m.high (x + 16 + 44714) = x + 16 + 44714 := by
    rw [hh]
    have harg : x + 16 + 44714 - (m.t0 + m.offset) + halfPeriod
        = 4471416 * (q + 1) + 44714 * 1 + 22357 := by
      simp only [halfPeriod]; omega
    rw [harg, gridSnap_eval (q+1) 1 22357 _ rfl (by omega) (by omega) (by omega) (by omega)]
    omega
  have m1 : minByAbs (x + 22357) (x + 16, true) (x + 16 + A, false) = (x + 16 + A, false) := by
    unfold minByAbs
    rw [if_pos (by omega)]
  have m2 : minByAbs (x + 22357) (x + 16 + A, false) (x + 16 + 44714, true)
      = (x + 16 + A, false) := by
    unfold minByAbs
    rw [if_neg (by omega)]
  simp only [Tide.event, halfPeriod, basePeriod, if_true, e1]
  rw [if_neg (by omega)]
  simp only [e3, Tide.lowBounds]
  have hd : ((x + 16 + 44714 - (x + 16) : Int) : ℚ) = (44714 : ℚ) := by push_cast; ring
  rw [hd, hA, m1, m2]

/-- Step from a Low inside a `basePeriod` gap starting at cell `(q, j)`,
`j ≤ 98`: the next event is the High at cell `(q, j+1)`. -/
theorem event_step_low_main (m : Tide) (hcorr : ∀ b, m.corr b = 0)
    (A B : Int) (hA : truncQ (m.lowf * 44714) = A) (hB : truncQ (m.lowf * 44730) = B)
    (hA1 : 32 < A) (hA2 : A < 44682) (hAB : A ≤ B) (hBA : B ≤ A + 16)
    (q j x : Int) (hj0 : 0 ≤ j) (hj1 : j ≤ 98)
    (hx : x = m.t0 + m.offset + 4471416 * q + 44714 * j + A) :
    m.event x true = (m.t0 + m.offset + 4471416 * q + 44714 * (j + 1), true) := by
  have hh := high_of_zero_corr m hcorr
  have e1 : m.high (x + 22357) = x - A + 44714 := by
    rw [hh]
    have harg : x + 22357 - (m.t0 + m.offset) + halfPeriod
        = 4471416 * q + 44714 * (j + 1) + A := by
      simp only [halfPeriod]; omega
    rw [harg, gridSnap_eval q (j+1) A _ rfl (by omega) (by omega) (by omega) (by omega)]
    omega
  by_cases hA3 : A < 22357
  · have e2 : m.high (x - A + 44714 - 44714) = x - A := by
      rw [hh]
      have harg : x - A + 44714 - 44714 - (m.t0 + m.offset) + halfPeriod
          = 4471416 * q + 44714 * j + 22357 := by
        simp only [halfPeriod]; omega
      rw [harg, gridSnap_eval q j 22357 _ rfl (by omega) (by omega) (by omega) (by omega)]
      omega
    have m1 : minByAbs (x + 22357) (x - A, true) (x - A + A, false)
        = (x - A + A, false) := by
      unfold minByAbs; rw [if_pos (by omega)]
    have m2 : minByAbs (x + 22357) (x - A + A, false) (x - A + 44714, true)
        = (x - A + 44714, true) := by
      unfold minByAbs; rw [if_pos (by omega)]
    simp only [Tide.event, halfPeriod, basePeriod, if_true, e1]
    rw [if_pos (by omega)]
    simp only [e2, Tide.lowBounds]
    have hd : ((x - A + 44714 - (x - A) : Int) : ℚ) = (44714 : ℚ) := by push_cast; ring
    rw [hd, hA, m1, m2]
    simp only [Prod.mk.injEq, and_true]
    omega
  · push_neg at hA3
    rcases eq_or_lt_of_le hj1 with hj98 | hj97
    · -- j = 98: the following gap crosses a block boundary
      have e3 : m.high (x - A + 44714 + 44714) = x - A + 44714 + 44714 + 16 := by
        rw [hh]
        have harg : x - A + 44714 + 44714 - (m.t0 + m.offset) + halfPeriod
            = 4471416 * (q + 1) + 44714 * 0 + 22341 := by
          simp only [halfPeriod]; omega
        rw [harg,
          gridSnap_eval (q+1) 0 22341 _ rfl (by omega) (by omega) (by omega) (by omega)]
        omega
      have m1 : minByAbs (x + 22357) (x - A + 44714, true) (x - A + 44714 + B, false)
          = (x - A + 44714, true) := by
        unfold minByAbs; rw [if_neg (by omega)]
      have m2 : minByAbs (x + 22357) (x - A + 44714, true)
          (x - A + 44714 + 44714 + 16, true) = (x - A + 44714, true) := by
        unfold minByAbs; rw [if_neg (by omega)]
      simp only [Tide.event, halfPeriod, basePeriod, if_true, e1]
      rw [if_neg (by omega)]
      simp only [e3, Tide.lowBounds]
      have hd : ((x - A + 44714 + 44714 + 16 - (x - A + 44714) : Int) : ℚ)
          = (44730 : ℚ) := by push_cast; ring
      rw [hd, hB, m1, m2]
      simp only [Prod.mk.injEq, and_true]
      omega
    · have e3 : m.high (x - A + 44714 + 44714) = x - A + 44714 + 44714 := by
        rw [hh]
        have harg : x - A + 44714 + 44714 - (m.t0 + m.offset) + halfPeriod
            = 4471416 * q + 44714 * (j + 2) + 22357 := by
          simp only [halfPeriod]; omega
        rw [harg,
          gridSnap_eval q (j+2) 22357 _ rfl (by omega) (by omega) (by omega) (by omega)]
        omega
      have m1 : minByAbs (x + 22357) (x - A + 44714, true) (x - A + 44714 + A, false)
          = (x - A + 44714, true) := by
        unfold minByAbs; rw [if_neg (by omega)]
      have m2 : minByAbs (x + 22357) (x - A + 44714, true)
          (x - A + 44714 + 44714, true) = (x - A + 44714, true) := by
        unfold minByAbs; rw [if_neg (by omega)]
      simp only [Tide.event, halfPeriod, basePeriod, if_true, e1]
      rw [if_neg (by omega)]
      simp only [e3, Tide.lowBounds]
      have hd : ((x - A + 44714 + 44714 - (x - A + 44714) : Int) : ℚ)
          = (44714 : ℚ) := by push_cast; ring
      rw [hd, hA, m1, m2]
      simp only [Prod.mk.injEq, and_true]
      omega

/-- Step from the Low of the `basePeriod` gap at cell `(q, 99)`: the next
event is the block-boundary High. -/
theorem event_step_low_99main (m : Tide) (hcorr : ∀ b, m.corr b = 0)
    (A B : Int) (hA : truncQ (m.lowf * 44714) = A) (hB : truncQ (m.lowf * 44730) = B)
    (hA1 : 32 < A) (hA2 : A < 44682) (hAB : A ≤ B) (hBA : B ≤ A + 16)
    (q x : Int)
    (hx : x = m.t0 + m.offset + 4471416 * q + 44714 * 99 + A) :
    m.event x true = (m.t0 + m.offset + 4471416 * (q + 1), true) := by
  have hh := high_of_zero_corr m hcorr
  have e1 : m.high (x + 22357) = x - A + 44730 := by
    rw [hh]
    have harg : x + 22357 - (m.t0 + m.offset) + halfPeriod
        = 4471416 * (q + 1) + 44714 * 0 + (A - 16) := by
      simp only [halfPeriod]; omega
    rw [harg,
      gridSnap_eval (q+1) 0 (A-16) _ rfl (by omega) (by omega) (by omega) (by omega)]
    omega
  by_cases hA3 : A < 22373
  · have e2 : m.high (x - A + 44730 - 44714) = x - A := by
      rw [hh]
      have harg : x - A + 44730 - 44714 - (m.t0 + m.offset) + halfPeriod
          = 4471416 * q + 44714 * 99 + 22373 := by
        simp only [halfPeriod]; omega
      rw [harg, gridSnap_eval q 99 22373 _ rfl (by omega) (by omega) (by omega) (by omega)]
      omega
    have m1 : minByAbs (x + 22357) (x - A, true) (x - A + B, false)
        = (x - A + B, false) := by
      unfold minByAbs; rw [if_pos (by omega)]
    have m2 : minByAbs (x + 22357) (x - A + B, false) (x - A + 44730, true)
        = (x - A + 44730, true) := by
      unfold minByAbs; rw [if_pos (by omega)]
    simp only [Tide.event, halfPeriod, basePeriod, if_true, e1]
    rw [if_pos (by omega)]
    simp only [e2, Tide.lowBounds]
    have hd : ((x - A + 44730 - (x - A) : Int) : ℚ) = (44730 : ℚ) := by push_cast; ring
    rw [hd, hB, m1, m2]
    simp only [Prod.mk.injEq, and_true]
    omega
  · push_neg at hA3
    have e3 : m.high (x - A + 44730 + 44714) = x - A + 44730 + 44714 := by
      rw [hh]
      have harg : x - A + 44730 + 44714 - (m.t0 + m.offset) + halfPeriod
          = 4471416 * (q + 1) + 44714 * 1 + 22357 := by
        simp only [halfPeriod]; omega
      rw [harg,
        gridSnap_eval (q+1) 1 22357 _ rfl (by omega) (by omega) (by omega) (by omega)]
      omega
    have m1 : minByAbs (x + 22357) (x - A + 44730, true) (x - A + 44730 + A, false)
        = (x - A + 44730, true) := by
      unfold minByAbs; rw [if_neg (by omega)]
    have m2 : minByAbs (x + 22357) (x - A + 44730, true)
        (x - A + 44730 + 44714, true) = (x - A + 44730, true) := by
      unfold minByAbs; rw [if_neg (by omega)]
    simp only [Tide.event, halfPeriod, basePeriod, if_true, e1]
    rw [if_neg (by omega)]
    simp only [e3, Tide.lowBounds]
    have hd : ((x - A + 44730 + 44714 - (x - A + 44730) : Int) : ℚ)
        = (44714 : ℚ) := by push_cast; ring
    rw [hd, hA, m1, m2]
    simp only [Prod.mk.injEq, and_true]
    omega

/-- Step from the Low of the block-crossing gap starting at cell `(q, 99)`:
the next event is the block-boundary High. -/
theorem event_step_low_99cross (m : Tide) (hcorr : ∀ b, m.corr b = 0)
    (A B : Int) (hA : truncQ (m.lowf * 44714) = A) (hB : truncQ (m.lowf * 44730) = B)
    (hA1 : 32 < A) (hA2 : A < 44682) (hAB : A ≤ B) (hBA : B ≤ A + 16)
    (q x : Int)
    (hx : x = m.t0 + m.offset + 4471416 * q + 44714 * 99 + B) :
    m.event x true = (m.t0 + m.offset + 4471416 * (q + 1), true) := by
  have hh := high_of_zero_corr m hcorr
  have e1 : m.high (x + 22357) = x - B + 44730 := by
    rw [hh]
    have harg : x + 22357 - (m.t0 + m.offset) + halfPeriod
        = 4471416 * (q + 1) + 44714 * 0 + (B - 16) := by
      simp only [halfPeriod]; omega
    rw [harg,
      gridSnap_eval (q+1) 0 (B-16) _ rfl (by omega) (by omega) (by omega) (by omega)]
    omega
  by_cases hB3 : B < 22373
  · have e2 : m.high (x - B + 44730 - 44714) = x - B := by
      rw [hh]
      have harg : x - B + 44730 - 44714 - (m.t0 + m.offset) + halfPeriod
          = 4471416 * q + 44714 * 99 + 22373 := by
        simp only [halfPeriod]; omega
      rw [harg, gridSnap_eval q 99 22373 _ rfl (by omega) (by omega) (by omega) (by omega)]
      omega
    have m1 : minByAbs (x + 22357) (x - B, true) (x - B + B, false)
        = (x - B + B, false) := by
      unfold minByAbs; rw [if_pos (by omega)]
    have m2 : minByAbs (x + 22357) (x - B + B, false) (x - B + 44730, true)
        = (x - B + 44730, true) := by
      unfold minByAbs; rw [if_pos (by omega)]
    simp only [Tide.event, halfPeriod, basePeriod, if_true, e1]
    rw [if_pos (by omega)]
    simp only [e2, Tide.lowBounds]
    have hd : ((x - B + 44730 - (x - B) : Int) : ℚ) = (44730 : ℚ) := by push_cast; ring
    rw [hd, hB, m1, m2]
    simp only [Prod.mk.injEq, and_true]
    omega
  · push_neg at hB3
    have e3 : m.high (x - B + 44730 + 44714) = x - B + 44730 + 44714 := by
      rw [hh]
      have harg : x - B + 44730 + 44714 - (m.t0 + m.offset) + halfPeriod
          = 4471416 * (q + 1) + 44714 * 1 + 22357 := by
        simp only [halfPeriod]; omega
      rw [harg,
        gridSnap_eval (q+1) 1 22357 _ rfl (by omega) (by omega) (by omega) (by omega)]
      omega
    have m1 : minByAbs (x + 22357) (x - B + 44730, true) (x - B + 44730 + A, false)
        = (x - B + 44730, true) := by
      unfold minByAbs; rw [if_neg (by omega)]
    have m2 : minByAbs (x + 22357) (x - B + 44730, true)
        (x - B + 44730 + 44714, true) = (x - B + 44730, true) := by
      unfold minByAbs; rw [if_neg (by omega)]
    simp only [Tide.event, halfPeriod, basePeriod, if_true, e1]
    rw [if_neg (by omega)]
    simp only [e3, Tide.lowBounds]
    have hd : ((x - B + 44730 + 44714 - (x - B + 44730) : Int) : ℚ)
        = (44714 : ℚ) := by push_cast; ring
    rw [hd, hA, m1, m2]
    simp only [Prod.mk.injEq, and_true]
    omega

/-- Step from the Low of the block-crossing gap starting at the rare cell
`(q, 100)`: the next event is the High one `basePeriod` after the block
boundary. -/
theorem event_step_low_100 (m : Tide) (hcorr : ∀ b, m.corr b = 0)
    (A B : Int) (hA : truncQ (m.lowf * 44714) = A) (hB : truncQ (m.lowf * 44730) = B)
    (hA1 : 32 < A) (hA2 : A < 44682) (hAB : A ≤ B) (hBA : B ≤ A + 16)
    (q x : Int)
    (hx : x = m.t0 + m.offset + 4471416 * q + 44714 * 100 + B) :
    m.event x true = (m.t0 + m.offset + 4471416 * (q + 1) + 44714, true) := by
  have hh := high_of_zero_corr m hcorr
  have e1 : m.high (x + 22357) = x - B + 44730 := by
    rw [hh]
    have harg : x + 22357 - (m.t0 + m.offset) + halfPeriod
        = 4471416 * (q + 1) + 44714 * 1 + (B - 16) := by
      simp only [halfPeriod]; omega
    rw [harg,
      gridSnap_eval (q+1) 1 (B-16) _ rfl (by omega) (by omega) (by omega) (by omega)]
    omega
  by_cases hB3 : B < 22373
  · have e2 : m.high (x - B + 44730 - 44714) = x - B + 16 := by
      rw [hh]
      have harg : x - B + 44730 - 44714 - (m.t0 + m.offset) + halfPeriod
          = 4471416 * (q + 1) + 44714 * 0 + 22357 := by
        simp only [halfPeriod]; omega
      rw [harg,
        gridSnap_eval (q+1) 0 22357 _ rfl (by omega) (by omega) (by omega) (by omega)]
      omega
    have m1 : minByAbs (x + 22357) (x - B + 16, true) (x - B + 16 + A, false)
        = (x - B + 16 + A, false) := by
      unfold minByAbs; rw [if_pos (by omega)]
    have m2 : minByAbs (x + 22357) (x - B + 16 + A, false) (x - B + 44730, true)
        = (x - B + 44730, true) := by
      unfold minByAbs; rw [if_pos (by omega)]
    simp only [Tide.event, halfPeriod, basePeriod, if_true, e1]
    rw [if_pos (by omega)]
    simp only [e2, Tide.lowBounds]
    have hd : ((x - B + 44730 - (x - B + 16) : Int) : ℚ) = (44714 : ℚ) := by
      push_cast; ring
    rw [hd, hA, m1, m2]
    simp only [Prod.mk.injEq, and_true]
    omega
  · push_neg at hB3
    have e3 : m.high (x - B + 44730 + 44714) = x - B + 44730 + 44714 := by
      rw [hh]
      have harg : x - B + 44730 + 44714 - (m.t0 + m.offset) + halfPeriod
          = 4471416 * (q + 1) + 44714 * 2 + 22357 := by
        simp only [halfPeriod]; omega
      rw [harg,
        gridSnap_eval (q+1) 2 22357 _ rfl (by omega) (by omega) (by omega) (by omega)]
      omega
    have m1 : minByAbs (x + 22357) (x - B + 44730, true) (x - B + 44730 + A, false)
        = (x - B + 44730, true) := by
      unfold minByAbs; rw [if_neg (by omega)]
    have m2 : minByAbs (x + 22357) (x - B + 44730, true)
        (x - B + 44730 + 44714, true) = (x - B + 44730, true) := by
      unfold minByAbs; rw [if_neg (by omega)]
    simp only [Tide.event, halfPeriod, basePeriod, if_true, e1]
    rw [if_neg (by omega)]
    simp only [e3, Tide.lowBounds]
    have hd : ((x - B + 44730 + 44714 - (x - B + 44730) : Int) : ℚ)
        = (44714 : ℚ) := by push_cast; ring
    rw [hd, hA, m1, m2]
    simp only [Prod.mk.injEq, and_true]
    omega

/-- `next=True` only advances the probe by `halfPeriod`. -/
theorem event_probe (m : Tide) (t : Int) (next : Bool) :
    m.event t next = m.event (if next then t + halfPeriod else t) false := by
  cases next <;> rfl

/-- Unfolded form of `Tide.event` for `next = false`. -/
theorem event_false_def (m : Tide) (t : Int) :
    m.event t false =
      (let lastHigh := m.high t
       let pr := if t < lastHigh then (m.high (lastHigh - basePeriod), lastHigh)
                 else (lastHigh, m.high (lastHigh + basePeriod))
       let low := m.lowBounds pr.1 pr.2
       minByAbs t (minByAbs t (pr.1, true) (low, false)) (pr.2, true)) := rfl

/-- A predicate holding on all three candidates holds on the selected one. -/
theorem minByAbs3_pred (P : Int × Bool → Prop) (t : Int) (a b c : Int × Bool)
    (ha : P a) (hb : P b) (hc : P c) : P (minByAbs t (minByAbs t a b) c) := by
  unfold minByAbs
  split <;> split <;> first
    | exact ha
    | exact hb
    | exact hc

/-- With zero correction the selected event is within `halfPeriod = 22357`
seconds of the probe time. -/
theorem event_close (m : Tide) (hcorr : ∀ b, m.corr b = 0) (t : Int) :
    ((m.event t false).1 - t).natAbs ≤ 22357 := by
  have hh := high_of_zero_corr m hcorr
  have ha0 : 0 ≤ (t - (m.t0 + m.offset) + 22357) % 4471416 % 44714 :=
    Int.emod_nonneg _ (by norm_num)
  have haP : (t - (m.t0 + m.offset) + 22357) % 4471416 % 44714 < 44714 :=
    Int.emod_lt_of_pos _ (by norm_num)
  have e1 : m.high t = t + 22357 - (t - (m.t0 + m.offset) + 22357) % 4471416 % 44714 := by
    rw [hh]
    unfold gridSnap
    simp only [halfPeriod, basePeriod100, basePeriod]
    omega
  rw [event_false_def]
  simp only [e1]
  by_cases hbr : t < t + 22357 - (t - (m.t0 + m.offset) + 22357) % 4471416 % 44714
  · rw [if_pos hbr]
    exact le_trans (minByAbs_key_le t _ _).2 (by omega)
  · rw [if_neg hbr]
    exact le_trans (le_trans (minByAbs_key_le t _ _).1 (minByAbs_key_le t _ _).1)
      (by omega)

/-- With zero correction, every event the search returns is a valid chain
state: a grid High, or a Low interpolated into a coherent consecutive-high
gap. -/
theorem event_valid_false (m : Tide) (hcorr : ∀ b, m.corr b = 0) (t : Int) :
    validEvent m (m.event t false) := by
  have hh := high_of_zero_corr m hcorr
  obtain ⟨q, j, a, ha0, haP, hj0, hj100, hdec, e1⟩ :
      ∃ q j a : Int, 0 ≤ a ∧ a < 44714 ∧ 0 ≤ j ∧ j ≤ 100 ∧
        t - (m.t0 + m.offset) + 22357 = 4471416 * q + 44714 * j + a ∧
        m.high t = t + 22357 - a := by
    refine ⟨(t - (m.t0 + m.offset) + 22357) / 4471416,
      (t - (m.t0 + m.offset) + 22357) % 4471416 / 44714,
      (t - (m.t0 + m.offset) + 22357) % 4471416 % 44714,
      by omega, by omega, by omega, by omega, by omega, ?_⟩
    rw [hh]
    unfold gridSnap
    simp only [halfPeriod, basePeriod100, basePeriod]
    omega
  rw [event_false_def]
  simp only [e1, basePeriod]
  by_cases hbr : t < t + 22357 - a
  · rw [if_pos hbr]
    rcases (by omega : 1 ≤ j ∨ j = 0) with hj1 | hj1
    · have e2 : m.high (t + 22357 - a - 44714) = t + 22357 - a - 44714 := by
        rw [hh]
        have harg : t + 22357 - a - 44714 - (m.t0 + m.offset) + halfPeriod
            = 4471416 * q + 44714 * (j - 1) + 22357 := by
          simp only [halfPeriod]; omega
        rw [harg,
          gridSnap_eval q (j-1) 22357 _ rfl (by omega) (by omega) (by omega) (by omega)]
        omega
      simp only [e2, Tide.lowBounds]
      have hd : ((t + 22357 - a - (t + 22357 - a - 44714) : Int) : ℚ) = (44714 : ℚ) := by
        push_cast; ring
      rw [hd]
      apply minByAbs3_pred (validEvent m)
      · exact ⟨q, j - 1, by omega, by omega, by omega⟩
      · exact ⟨q, j - 1, by omega, Or.inl ⟨by omega, by omega⟩⟩
      · exact ⟨q, j, by omega, by omega, by omega⟩
    · have e2 : m.high (t + 22357 - a - 44714) = t + 22357 - a - 44730 := by
        rw [hh]
        have harg : t + 22357 - a - 44714 - (m.t0 + m.offset) + halfPeriod
            = 4471416 * (q - 1) + 44714 * 99 + 22373 := by
          simp only [halfPeriod]; omega
        rw [harg,
          gridSnap_eval (q-1) 99 22373 _ rfl (by omega) (by omega) (by omega) (by omega)]
        omega
      simp only [e2, Tide.lowBounds]
      have hd : ((t + 22357 - a - (t + 22357 - a - 44730) : Int) : ℚ) = (44730 : ℚ) := by
        push_cast; ring
      rw [hd]
      apply minByAbs3_pred (validEvent m)
      · exact ⟨q - 1, 99, by omega, by omega, by omega⟩
      · exact ⟨q - 1, 99, by omega, Or.inr ⟨Or.inl rfl, by omega⟩⟩
      · exact ⟨q, 0, by omega, by omega, by omega⟩
  · rw [if_neg hbr]
    rcases (by omega : j ≤ 98 ∨ j = 99 ∨ j = 100) with hj1 | hj1 | hj1
    · have e3 : m.high (t + 22357 - a + 44714) = t + 22357 - a + 44714 := by
        rw [hh]
        have harg : t + 22357 - a + 44714 - (m.t0 + m.offset) + halfPeriod
            = 4471416 * q + 44714 * (j + 1) + 22357 := by
          simp only [halfPeriod]; omega
        rw [harg,
          gridSnap_eval q (j+1) 22357 _ rfl (by omega) (by omega) (by omega) (by omega)]
        omega
      simp only [e3, Tide.lowBounds]
      have hd : ((t + 22357 - a + 44714 - (t + 22357 - a) : Int) : ℚ) = (44714 : ℚ) := by
        push_cast; ring
      rw [hd]
      apply minByAbs3_pred (validEvent m)
      · exact ⟨q, j, by omega, by omega, by omega⟩
      · exact ⟨q, j, by omega, Or.inl ⟨by omega, by omega⟩⟩
      · exact ⟨q, j + 1, by omega, by omega, by omega⟩
    · have e3 : m.high (t + 22357 - a + 44714) = t + 22357 - a + 44730 := by
        rw [hh]
        have harg : t + 22357 - a + 44714 - (m.t0 + m.offset) + halfPeriod
            = 4471416 * (q + 1) + 44714 * 0 + 22341 := by
          simp only [halfPeriod]; omega
        rw [harg,
          gridSnap_eval (q+1) 0 22341 _ rfl (by omega) (by omega) (by omega) (by omega)]
        omega
      simp only [e3, Tide.lowBounds]
      have hd : ((t + 22357 - a + 44730 - (t + 22357 - a) : Int) : ℚ) = (44730 : ℚ) := by
        push_cast; ring
      rw [hd]
      apply minByAbs3_pred (validEvent m)
      · exact ⟨q, 99, by omega, by omega, by omega⟩
      · exact ⟨q, 99, by omega, Or.inr ⟨Or.inl rfl, by omega⟩⟩
      · exact ⟨q + 1, 0, by omega, by omega, by omega⟩
    · have e3 : m.high (t + 22357 - a + 44714) = t + 22357 - a + 44730 := by
        rw [hh]
        have harg : t + 22357 - a + 44714 - (m.t0 + m.offset) + halfPeriod
            = 4471416 * (q + 1) + 44714 * 1 + 22341 := by
          simp only [halfPeriod]; omega
        rw [harg,
          gridSnap_eval (q+1) 1 22341 _ rfl (by omega) (by omega) (by omega) (by omega)]
        omega
      simp only [e3, Tide.lowBounds]
      have hd : ((t + 22357 - a + 44730 - (t + 22357 - a) : Int) : ℚ) = (44730 : ℚ) := by
        push_cast; ring
      rw [hd]
      apply minByAbs3_pred (validEvent m)
      · exact ⟨q, 100, by omega, by omega, by omega⟩
      · exact ⟨q, 100, by omega, Or.inr ⟨Or.inr rfl, by omega⟩⟩
      · exact ⟨q + 1, 1, by omega, by omega, by omega⟩

/-- Validity of any event output, for either value of `next`. -/
theorem event_valid (m : Tide) (hcorr : ∀ b, m.corr b = 0) (t : Int) (next : Bool) :
    validEvent m (m.event t next) := by
  rw [event_probe]
  exact event_valid_false m hcorr _

/-- One forward step of the event chain from a valid state: the timestamp
strictly increases and the High/Low kind flips. -/
theorem event_step (m : Tide) (hcorr : ∀ b, m.corr b = 0)
    (h1 : 32 < truncQ (m.lowf * 44714)) (h2 : truncQ (m.lowf * 44714) < 44682)
    (e : Int × Bool) (he : validEvent m e) :
    validEvent m (m.event e.1 true) ∧ e.1 < (m.event e.1 true).1 ∧
      (m.event e.1 true).2 = !e.2 := by
  obtain ⟨hAB, hBA⟩ := lowf_trunc_facts m.lowf h1 h2
  obtain ⟨x, b⟩ := e
  cases b
  · -- Low state
    obtain ⟨q, j, hj0, hcase⟩ := he
    rcases hcase with ⟨hj99, hx⟩ | ⟨hj, hx⟩
    · rcases (by omega : j ≤ 98 ∨ j = 99) with hj98 | hj98
      · rw [show ((x, false) : Int × Bool).1 = x from rfl,
          event_step_low_main m hcorr _ _ rfl rfl h1 h2 hAB hBA q j x hj0 hj98 hx]
        exact ⟨⟨q, j + 1, by omega, by omega, by omega⟩, by omega, rfl⟩
      · subst hj98
        rw [show ((x, false) : Int × Bool).1 = x from rfl,
          event_step_low_99main m hcorr _ _ rfl rfl h1 h2 hAB hBA q x hx]
        exact ⟨⟨q + 1, 0, by omega, by omega, by omega⟩, by omega, rfl⟩
    · rcases hj with hj | hj
      · subst hj
        rw [show ((x, false) : Int × Bool).1 = x from rfl,
          event_step_low_99cross m hcorr _ _ rfl rfl h1 h2 hAB hBA q x hx]
        exact ⟨⟨q + 1, 0, by omega, by omega, by omega⟩, by omega, rfl⟩
      · subst hj
        rw [show ((x, false) : Int × Bool).1 = x from rfl,
          event_step_low_100 m hcorr _ _ rfl rfl h1 h2 hAB hBA q x hx]
        exact ⟨⟨q + 1, 1, by omega, by omega, by omega⟩, by omega, rfl⟩
  · -- High state
    obtain ⟨q, j, hj0, hj100, hx⟩ := he
    rcases (by omega : j ≤ 99 ∨ j = 100) with hj99 | hj99
    · rw [show ((x, true) : Int × Bool).1 = x from rfl,
        event_step_high_main m hcorr _ rfl (by omega) (by omega) q j x hj0 hj99 hx]
      exact ⟨⟨q, j, by omega, Or.inl ⟨by omega, by omega⟩⟩, by omega, rfl⟩
    · subst hj99
      rw [show ((x, true) : Int × Bool).1 = x from rfl,
        event_step_high_rare m hcorr _ rfl (by omega) h2 q x hx]
      exact ⟨⟨q + 1, 0, by omega, Or.inl ⟨by omega, by omega⟩⟩, by omega, rfl⟩

/-- The tail of the event cache from a valid state: `n` entries, and the
whole list from the state onward is strictly increasing with alternating
kind. -/
theorem chainFrom_spec (m : Tide) (hcorr : ∀ b, m.corr b = 0)
    (h1 : 32 < truncQ (m.lowf * 44714)) (h2 : truncQ (m.lowf * 44714) < 44682)
    (n : Nat) :
    ∀ e : Int × Bool, validEvent m e →
      (m.chainFrom e n).length = n ∧
      List.Chain' (fun u v : Int × Bool => u.1 < v.1 ∧ v.2 = !u.2)
        (e :: m.chainFrom e n) := by
  induction n with
  | zero => intro e _; simp [Tide.chainFrom]
  | succ n ih =>
    intro e he
    obtain ⟨hval, hlt, hflip⟩ := event_step m hcorr h1 h2 e he
    obtain ⟨ihlen, ihchain⟩ := ih (m.event e.1 true) hval
    constructor
    · simp only [Tide.chainFrom, List.length_cons, ihlen]
    · simp only [Tide.chainFrom]
      exact List.chain'_cons.mpr ⟨⟨hlt, hflip⟩, ihchain⟩

/-! ### Claim theorems -/

/-- Claim C1 (amended): for every reference time `t` and count `N`, for a
loaded site whose truncated harmonic correction is identically zero and
whose low-fraction truncation `int(lowf * 44714)` lies strictly between 32
and 44682, the event chain built by `_draw` yields exactly `N` events whose
timestamps strictly increase and whose `isHigh` flags strictly alternate. -/
theorem C1_chain_alternating (m : Tide) (hcorr : ∀ b, m.corr b = 0)
    (h1 : 32 < truncQ (m.lowf * 44714)) (h2 : truncQ (m.lowf * 44714) < 44682)
    (t : Int) (N : Nat) :
    (m.chain t N).length = N ∧
    List.Chain' (fun u v : Int × Bool => u.1 < v.1 ∧ v.2 = !u.2) (m.chain t N) ∧
    List.Pairwise (fun u v : Int × Bool => u.1 < v.1) (m.chain t N) := by
  cases N with
  | zero => simp [Tide.chain]
  | succ n =>
    have hfirst : validEvent m (m.chainFirst t) := by
      simp only [Tide.chainFirst]
      split
      · exact event_valid m hcorr _ true
      · exact event_valid m hcorr t false
    obtain ⟨hlen, hchain⟩ := chainFrom_spec m hcorr h1 h2 n (m.chainFirst t) hfirst
    have hchain2 : List.Chain' (fun u v : Int × Bool => u.1 < v.1 ∧ v.2 = !u.2)
        (m.chain t (n + 1)) := by
      simp only [Tide.chain]
      exact hchain
    refine ⟨by simp only [Tide.chain, List.length_cons, hlen], hchain2, ?_⟩
    have hmono : List.Chain' (fun u v : Int × Bool => u.1 < v.1) (m.chain t (n + 1)) :=
      List.Chain'.imp (fun _ _ h => h.1) hchain2
    haveI : IsTrans (Int × Bool) (fun u v : Int × Bool => u.1 < v.1) :=
      ⟨fun _ _ _ h h2 => lt_trans h h2⟩
    exact List.chain'_iff_pairwise.mp hmono

/-- Claim C1, as stated, is false: a loadable site with low fraction 0 (and
zero amplitudes) repeats the same event, so the chain of 2 events from time
0 neither increases nor alternates. -/
theorem C1_counterexample :
    ¬ List.Chain' (fun u v : Int × Bool => u.1 < v.1 ∧ v.2 = !u.2)
      (Tide.chain ⟨0, 0, 0, fun _ => 0⟩ 0 2) := by
  have h : Tide.chain ⟨0, 0, 0, fun _ => 0⟩ 0 2 = [(0, true), (0, true)] := by
    norm_num [Tide.chain, Tide.chainFirst, Tide.chainFrom, Tide.event, Tide.high,
      Tide.lowBounds, minByAbs, truncQ, basePeriod100, basePeriod, halfPeriod]
  rw [h]
  intro hc
  exact lt_irrefl 0 (List.chain'_cons.mp hc).1.1

/-- Witness for C1 at a concrete site (`lowf = 1/2`), `t = 0`, `N = 4`. -/
theorem C1_witness :
    (32 < truncQ ((1/2 : ℚ) * 44714) ∧ truncQ ((1/2 : ℚ) * 44714) < 44682) ∧
    ((Tide.chain ⟨0, 0, 1/2, fun _ => 0⟩ 0 4).length = 4 ∧
     List.Chain' (fun u v : Int × Bool => u.1 < v.1 ∧ v.2 = !u.2)
       (Tide.chain ⟨0, 0, 1/2, fun _ => 0⟩ 0 4) ∧
     List.Pairwise (fun u v : Int × Bool => u.1 < v.1)
       (Tide.chain ⟨0, 0, 1/2, fun _ => 0⟩ 0 4)) :=
  ⟨⟨by norm_num [truncQ], by norm_num [truncQ]⟩,
    C1_chain_alternating ⟨0, 0, 1/2, fun _ => 0⟩ (fun _ => rfl)
      (by norm_num [truncQ]) (by norm_num [truncQ]) 0 4⟩

/-- Claim C2 (amended): for a loaded site whose truncated harmonic
correction is identically zero, the event returned by `event(t)` (with
`next = False`) is within `halfPeriod` of `t`, for every `t`. -/
theorem C2_nearest_within_halfPeriod (m : Tide) (hcorr : ∀ b, m.corr b = 0)
    (t : Int) :
    |(m.event t false).1 - t| ≤ halfPeriod := by
  have h := event_close m hcorr t
  rw [Int.abs_eq_natAbs]
  simp only [halfPeriod]
  omega

/-- Claim C2, as stated, is false: a loadable site with a large harmonic
amplitude has a truncated correction of 223570 seconds, and the event
nearest to `t = 0` is 223570 seconds away, far beyond `halfPeriod`. -/
theorem C2_counterexample :
    ¬ |(Tide.event ⟨0, 0, 1/2, fun _ => 223570⟩ 0 false).1 - 0| ≤ halfPeriod := by
  have h : Tide.event ⟨0, 0, 1/2, fun _ => 223570⟩ 0 false = (223570, true) := by
    norm_num [Tide.event, Tide.high, Tide.lowBounds, minByAbs, truncQ,
      basePeriod100, basePeriod, halfPeriod]
  rw [h]
  norm_num [halfPeriod]

/-- Witness for C2 at a concrete zero-correction site and `t = 12345`. -/
theorem C2_witness :
    |(Tide.event ⟨0, 0, 1/2, fun _ => 0⟩ 12345 false).1 - 12345| ≤ halfPeriod :=
  C2_nearest_within_halfPeriod ⟨0, 0, 1/2, fun _ => 0⟩ (fun _ => rfl) 12345

/-! ### Calendar lemmas -/

theorem daysFromEpoch_jan1 (y : Nat) :
    daysFromEpoch y 1 1 = 365 * (y - 2000) + (y - 1997) / 4 := by
  unfold daysFromEpoch
  rw [show cumDays 1 = 0 from rfl, if_neg (by omega)]
  omega

theorem yearOf_eq_of (u y : Nat) (hy0 : 2000 ≤ y) (hy1 : y ≤ 2099)
    (hlo : yearStartSec y ≤ u) (hhi : u < yearStartSec (y + 1)) : yearOf u = y := by
  unfold yearStartSec at hlo hhi
  rw [daysFromEpoch_jan1] at hlo hhi
  simp only [yearOf]
  split_ifs <;> omega

theorem yearOf_bounds (u : Nat) (hu : u < 3155760000) :
    2000 ≤ yearOf u ∧ yearOf u ≤ 2099 ∧
    yearStartSec (yearOf u) ≤ u ∧ u < yearStartSec (yearOf u + 1) := by
  simp only [yearOf, yearStartSec, daysFromEpoch_jan1]
  split_ifs <;> omega

/-- Both fall-back boundaries stay an hour clear of the end of their year
(checked for all modelled years). -/
theorem fallBack_within_year : ∀ k : Fin 100,
    fallBackE (2000 + k.1) + 3600 < yearStartSec (2001 + k.1) ∧
    fallBackU (2000 + k.1) + 3600 < yearStartSec (2001 + k.1) := by decide

/-- Unfolded `_displayTime` for the Europe region. -/
theorem displayTime_europe (t : Int) (offset : Int) :
    _displayTime t (some "Europe") offset =
      some (if t < (springFwdE (yearOf t.toNat) : Int) ∨
              t > (fallBackE (yearOf t.toNat) : Int) then t else t + offset) := rfl

/-- Unfolded `_displayTime` for the US-Canada region. -/
theorem displayTime_us (t : Int) (offset : Int) :
    _displayTime t (some "US-Canada") offset =
      some (if t < (springFwdU (yearOf t.toNat) : Int) ∨
              t > (fallBackU (yearOf t.toNat) : Int) then t else t + offset) := rfl

/-- Claim C3: the code places the US-Canada spring-forward boundary on the
FIRST Sunday of March at 2:00 for every modelled year (2000-2099), not the
second Sunday the claim and the code comment state; concretely, for 2025 the
boundary is 2025-03-02 02:00 although the second Sunday is 2025-03-09 (both
days shown to be Sundays).  The fall-back boundary is indeed the first
Sunday of November. -/
theorem C3_us_boundaries :
    (∀ k : Fin 100,
      dow (daysFromEpoch (2000 + k.1) 3 (7 - (yoff (2000 + k.1) + 1) % 7)) = 0 ∧
      1 ≤ 7 - (yoff (2000 + k.1) + 1) % 7 ∧ 7 - (yoff (2000 + k.1) + 1) % 7 ≤ 7 ∧
      dow (daysFromEpoch (2000 + k.1) 11 (7 - (yoff (2000 + k.1) + 1) % 7)) = 0) ∧
    springFwdU 2025 = _mktime 2025 3 2 2 ∧
    dow (daysFromEpoch 2025 3 2) = 0 ∧ dow (daysFromEpoch 2025 3 9) = 0 ∧
    springFwdU 2025 ≠ _mktime 2025 3 9 2 := by
  refine ⟨by decide, by decide, by decide, by decide, by decide⟩

/-- Claim C4 (amended): for both DST regions, `_displayTime` adds 3600
exactly when `t` lies in the CLOSED interval from `springFwd` to `fallBack`
(both boundary values included), and returns `t` unchanged otherwise. -/
theorem C4_display_closed_interval (t : Int) :
    (_displayTime t (some "Europe") 3600 =
      some (if (springFwdE (yearOf t.toNat) : Int) ≤ t ∧
                t ≤ (fallBackE (yearOf t.toNat) : Int) then t + 3600 else t)) ∧
    (_displayTime t (some "US-Canada") 3600 =
      some (if (springFwdU (yearOf t.toNat) : Int) ≤ t ∧
                t ≤ (fallBackU (yearOf t.toNat) : Int) then t + 3600 else t)) := by
  rw [displayTime_europe, displayTime_us]
  constructor <;> · congr 1; split_ifs <;> omega

/-- Claim C4, as stated, is false at `t = fallBack`: the claim says the
interval is half-open so `fallBack` maps to itself, but the code maps the
2025 Europe fall-back boundary to itself plus 3600. -/
theorem C4_counterexample :
    _displayTime (fallBackE 2025 : Int) (some "Europe") 3600
      ≠ some (fallBackE 2025 : Int) := by decide

/-- Claim C9: any region value other than None, Europe and US-Canada makes
both adjusters raise (modelled as `none`); they never fall back to a
recognized region. -/
theorem C9_invalid_region_error (t : Int) (s : String)
    (h1 : s ≠ "Europe") (h2 : s ≠ "US-Canada") :
    _displayTime t (some s) 3600 = none ∧ _standardTime t (some s) = none := by
  unfold _standardTime _displayTime
  simp [h1, h2]

/-- Witness for C9 with the unrecognized region string "Atlantis". -/
theorem C9_witness :
    _displayTime 0 (some "Atlantis") 3600 = none ∧
    _standardTime 0 (some "Atlantis") = none :=
  C9_invalid_region_error 0 "Atlantis" (by decide) (by decide)

/-- Claim C5: for `region = None` the display/standard round trip is the
identity for every `t`; for the two DST regions it is the identity for every
modelled `t` strictly outside the two clock-change hours. -/
theorem C5_roundtrip (t : Int) (r : Option String)
    (hr : r = none ∨ r = some "Europe" ∨ r = some "US-Canada")
    (hout : ∀ s, r = some s → 0 ≤ t ∧ t + 3600 < 3155760000 ∧
      outsideChangeHours (springFwdOf s (yearOf t.toNat))
        (fallBackOf s (yearOf t.toNat)) t) :
    (_displayTime t r 3600).bind (fun d => _standardTime d r) = some t := by
  rcases hr with hr | hr | hr <;> subst hr
  · rfl
  · obtain ⟨ht0, ht1, hc⟩ := hout "Europe" rfl
    unfold outsideChangeHours springFwdOf fallBackOf at hc
    rw [if_pos rfl, if_pos rfl] at hc
    have hb := yearOf_bounds t.toNat (by omega)
    have hf := fallBack_within_year ⟨yearOf t.toNat - 2000, by omega⟩
    rw [show 2000 + (yearOf t.toNat - 2000) = yearOf t.toNat from by omega,
        show 2001 + (yearOf t.toNat - 2000) = yearOf t.toNat + 1 from by omega] at hf
    rw [displayTime_europe]
    by_cases hdst : t < (springFwdE (yearOf t.toNat) : Int) ∨
        t > (fallBackE (yearOf t.toNat) : Int)
    · rw [if_pos hdst]
      show _standardTime t (some "Europe") = some t
      unfold _standardTime
      rw [displayTime_europe, if_pos hdst]
    · rw [if_neg hdst]
      show _standardTime (t + 3600) (some "Europe") = some t
      unfold _standardTime
      rw [displayTime_europe]
      have hy2 : yearOf (t + 3600).toNat = yearOf t.toNat := by
        apply yearOf_eq_of _ _ hb.1 hb.2.1
        · omega
        · omega
      rw [hy2, if_neg (by omega)]
      norm_num
  · obtain ⟨ht0, ht1, hc⟩ := hout "US-Canada" rfl
    unfold outsideChangeHours springFwdOf fallBackOf at hc
    rw [if_neg (by decide), if_neg (by decide)] at hc
    have hb := yearOf_bounds t.toNat (by omega)
    have hf := fallBack_within_year ⟨yearOf t.toNat - 2000, by omega⟩
    rw [show 2000 + (yearOf t.toNat - 2000) = yearOf t.toNat from by omega,
        show 2001 + (yearOf t.toNat - 2000) = yearOf t.toNat + 1 from by omega] at hf
    rw [displayTime_us]
    by_cases hdst : t < (springFwdU (yearOf t.toNat) : Int) ∨
        t > (fallBackU (yearOf t.toNat) : Int)
    · rw [if_pos hdst]
      show _standardTime t (some "US-Canada") = some t
      unfold _standardTime
      rw [displayTime_us, if_pos hdst]
    · rw [if_neg hdst]
      show _standardTime (t + 3600) (some "US-Canada") = some t
      unfold _standardTime
      rw [displayTime_us]
      have hy2 : yearOf (t + 3600).toNat = yearOf t.toNat := by
        apply yearOf_eq_of _ _ hb.1 hb.2.1
        · omega
        · omega
      rw [hy2, if_neg (by omega)]
      norm_num

/-- Witness for C5: a mid-June 2025 instant in region Europe round-trips. -/
theorem C5_witness :
    (_displayTime (_mktime 2025 6 15 0 : Int) (some "Europe") 3600).bind
      (fun d => _standardTime d (some "Europe")) = some (_mktime 2025 6 15 0 : Int) := by
  apply C5_roundtrip _ _ (Or.inr (Or.inl rfl))
  intro s hs
  injection hs with hs
  subst hs
  refine ⟨by decide, by decide, ?_⟩
  unfold outsideChangeHours springFwdOf fallBackOf
  refine ⟨?_, ?_⟩ <;> decide

/-- Claim C6 (amended): with both bounds supplied, `predictLow` returns
`lastHigh` plus the product `lowf * (nextHigh - lastHigh)` truncated toward
zero (equal to its floor when `lowf` is nonnegative and the bounds are
ordered); an unset bound is first derived as `high(t - halfPeriod)` resp.
`high(t + halfPeriod)`. -/
theorem C6_predictLow_truncates (m : Tide) (t lh nh : Int)
    (hlf : 0 ≤ m.lowf) (hord : lh ≤ nh) :
    m.low (some t) (some lh) (some nh)
        = some (lh + ⌊m.lowf * ((nh : ℚ) - (lh : ℚ))⌋) ∧
    m.low (some t) none (some nh)
        = some (m.lowBounds (m.high (t - halfPeriod)) nh) ∧
    m.low (some t) (some lh) none
        = some (m.lowBounds lh (m.high (t + halfPeriod))) := by
  refine ⟨?_, rfl, rfl⟩
  show some (m.lowBounds lh nh) = _
  unfold Tide.lowBounds
  have hcast : ((nh - lh : Int) : ℚ) = (nh : ℚ) - (lh : ℚ) := by push_cast; ring
  rw [truncQ_of_nonneg _ (by
    rw [hcast]
    exact mul_nonneg hlf (by exact_mod_cast sub_nonneg.mpr hord)), hcast]

/-- Claim C6, as stated, is false: `int()` truncates, it does not round to
the nearest second.  With `lowf = 1/2`, `lastHigh = 0`, `nextHigh = 3` the
code returns 1 while the claimed rounding gives 2. -/
theorem C6_counterexample :
    Tide.low ⟨0, 0, 1/2, fun _ => 0⟩ none (some 0) (some 3) = some 1 ∧
    (0 : Int) + round ((1/2 : ℚ) * (((3 : Int) : ℚ) - ((0 : Int) : ℚ))) = 2 := by
  constructor
  · show some (Tide.lowBounds _ 0 3) = some 1
    unfold Tide.lowBounds
    norm_num [truncQ]
  · norm_num [round_eq]

/-- Witness for C6 at `lowf = 1/2`, `lastHigh = 0`, `nextHigh = 3`. -/
theorem C6_witness :
    Tide.low ⟨0, 0, 1/2, fun _ => 0⟩ (some 0) (some 0) (some 3) = some 1 := by
  have h := (C6_predictLow_truncates ⟨0, 0, 1/2, fun _ => 0⟩ 0 0 3
    (by norm_num) (by norm_num)).1
  rw [h]
  norm_num

/-- Claim C7 (amended): for a site with `offset = 0` and all amplitudes
zero, `predictHigh(t) - t0` always lies on the two-stage grid (reducing it
modulo `basePeriod100` and then modulo `basePeriod` gives 0), and it is an
exact integer multiple of `basePeriod` whenever `t - t0 + halfPeriod` lies
inside the first `basePeriod100` block. -/
theorem C7_high_on_grid (m : Tide) (t : Int) (hoff : m.offset = 0)
    (hcorr : ∀ b, m.corr b = 0) :
    (m.high t - m.t0) % basePeriod100 % basePeriod = 0 ∧
    (0 ≤ t - m.t0 + halfPeriod → t - m.t0 + halfPeriod < basePeriod100 →
      (m.high t - m.t0) % basePeriod = 0) := by
  simp only [halfPeriod, basePeriod100, basePeriod]
  have hh := high_of_zero_corr m hcorr
  obtain ⟨q, j, a, ha0, haP, hj0, hj100, hja, hdec⟩ :
      ∃ q j a : Int, 0 ≤ a ∧ a < 44714 ∧ 0 ≤ j ∧ j ≤ 100 ∧
        44714 * j + a < 4471416 ∧
        t - (m.t0 + m.offset) + 22357 = 4471416 * q + 44714 * j + a := by
    refine ⟨(t - (m.t0 + m.offset) + 22357) / 4471416,
      (t - (m.t0 + m.offset) + 22357) % 4471416 / 44714,
      (t - (m.t0 + m.offset) + 22357) % 4471416 % 44714,
      by omega, by omega, by omega, by omega, by omega, by omega⟩
  have hsnap : m.high t = m.t0 + 4471416 * q + 44714 * j := by
    rw [hh]
    have harg : t - (m.t0 + m.offset) + halfPeriod = 4471416 * q + 44714 * j + a := by
      simp only [halfPeriod]; omega
    rw [harg, gridSnap_eval q j a _ rfl ha0 haP hj0 hja]
    omega
  constructor
  · rw [hsnap]
    have e1 : m.t0 + 4471416 * q + 44714 * j - m.t0 = 44714 * j + 4471416 * q := by ring
    rw [e1, Int.add_mul_emod_self_left,
      @Int.emod_eq_of_lt (44714 * j) 4471416 (by omega) (by omega)]
    exact Int.mul_emod_right 44714 j
  · intro hlo hhi
    rw [hsnap]
    have hq : q = 0 := by omega
    subst hq
    have e1 : m.t0 + 4471416 * 0 + 44714 * j - m.t0 = 44714 * j := by ring
    rw [e1]
    exact Int.mul_emod_right 44714 j

/-- Claim C7, as stated, is false: at `t = basePeriod100` (with `t0 = 0`)
the prediction is 4471416, which is not an integer multiple of
`basePeriod = 44714` (the grid slips 16 seconds every block). -/
theorem C7_counterexample :
    Tide.high ⟨0, 0, 1/2, fun _ => 0⟩ 4471416 = 4471416 ∧
    ¬ ∃ k : Int, (4471416 : Int) = basePeriod * k := by
  constructor
  · decide
  · rintro ⟨k, hk⟩
    simp only [basePeriod] at hk
    omega

/-- Witness for C7 at `t = 1000` on a zero-amplitude, zero-offset site. -/
theorem C7_witness :
    (Tide.high ⟨0, 0, 1/2, fun _ => 0⟩ 1000 - 0) % basePeriod100 % basePeriod = 0 ∧
    (Tide.high ⟨0, 0, 1/2, fun _ => 0⟩ 1000 - 0) % basePeriod = 0 := by
  have h := C7_high_on_grid ⟨0, 0, 1/2, fun _ => 0⟩ 1000 rfl (fun _ => rfl)
  exact ⟨h.1, h.2 (by decide) (by decide)⟩

/-- Claim C10: with both bounds supplied, `predictLow` is independent of the
reference-time argument, including a missing one — exactly what
`Tide.event` relies on when it passes `None`. -/
theorem C10_low_ignores_t (m : Tide) (t1 t2 : Option Int) (lh nh : Int) :
    m.low t1 (some lh) (some nh) = m.low t2 (some lh) (some nh) := rfl

theorem findLine_eq (lines : List String) (n : Nat) :
    findLine lines n = lines[n]? := by
  induction lines generalizing n with
  | nil => cases n <;> rfl
  | cons l ls ih => cases n with
    | zero => simp [findLine]
    | succ k => simp [findLine, ih]

/-- Claim C8 (amended): `_load_nsite` does no comment filtering: it selects
the index-th line of the file counting every line, and when the index is at
least the total number of lines it wraps to the first line of the file
(empty string for an empty file) and resets the index to 0. -/
theorem C8_loader_selects_raw_lines (lines : List String) (n : Nat) :
    loadLine lines n =
      if n < lines.length then (lines.getD n "", n) else (lines.headD "", 0) := by
  unfold loadLine
  rw [findLine_eq]
  by_cases h : n < lines.length
  · rw [if_pos h, List.getElem?_eq_getElem h, List.getD_eq_getElem lines "" h]
  · rw [if_neg h, List.getElem?_eq_none (by omega)]

/-- Claim C8, as stated, is false: with a comment header line and index 0
the loader selects the comment line itself, whereas the claimed rule
(comments skipped) selects the first site line. -/
theorem C8_counterexample :
    (loadLine ["#sites,config", "Avonmouth,0"] 0).1 = "#sites,config" ∧
    isComment "#sites,config" = true ∧
    loadSpec ["#sites,config", "Avonmouth,0"] 0 = some "Avonmouth,0" := by
  refine ⟨rfl, by decide, by decide⟩
